import Mathlib

/-!
Shallow embedding of the GammaForge quantitative core and proofs about it.

Python floats on the pure-arithmetic paths are modelled as exact rationals;
the transcendental Black-Scholes formulas are modelled over the reals.
Fallible Python operations (division by zero, math-domain failures,
tuple-unpacking mismatches) are modelled with Except.
-/

namespace GammaForge

/-- Option side, the values of the type column: C for call, P for put. -/
inductive OptionType
  | C
  | P
deriving DecidableEq, Repr

/-- One row of an option-chain frame.  Column set is the union of the columns
the embedded functions touch: type, strike, expiration (days since an epoch),
gamma, open_interest, volume, T (years to expiry) and iv. -/
structure OptionRow where
  otype : OptionType
  strike : ℚ
  expiration : ℚ
  gamma : ℚ
  open_interest : ℚ
  volume : ℚ
  T : ℚ
  iv : ℚ
deriving DecidableEq, Repr

/-- Embeds calculate_price_bounds from gex_tracker.core.utils:
lower and upper bound around the spot price. -/
def calculate_price_bounds (spot_price percentage : ℚ) : ℚ × ℚ :=
  (spot_price * (1 - percentage), spot_price * (1 + percentage))

/-- Embeds the notional-gamma column set up by
GEXCalculator._calculate_notional_gamma: gamma times the contract size 100
times open interest times spot, negated when the type column is P. -/
def notionalGamma (spot : ℚ) (r : OptionRow) : ℚ :=
  let base := r.gamma * 100 * r.open_interest * spot
  if r.otype = OptionType.P then -base else base

/-- Embeds GEXCalculator.get_total_gex: the sum of the notional-gamma column. -/
def get_total_gex (df : List OptionRow) (spot : ℚ) : ℚ :=
  (df.map (notionalGamma spot)).sum

/-- Band filter used by the strike-level views: keeps rows whose strike lies
inside calculate_price_bounds spot percentage. -/
def bandFilter (df : List OptionRow) (spot percentage : ℚ) : List OptionRow :=
  let b := calculate_price_bounds spot percentage
  df.filter (fun r => decide (b.1 ≤ r.strike ∧ r.strike ≤ b.2))

/-- Sorted list of the distinct strikes of a frame; models the ascending group
keys produced by a pandas groupby on the strike column. -/
def strikeKeys (df : List OptionRow) : List ℚ :=
  ((df.map OptionRow.strike).dedup).insertionSort (· ≤ ·)

/-- Embeds the groupby-sum over strikes of the notional-gamma column used by
GEXCalculator.get_gex_by_strike and get_cumulative_gex: an ordered map from
each strike inside the band to the summed notional gamma at that strike. -/
def gexByStrikeBand (df : List OptionRow) (spot percentage : ℚ) : List (ℚ × ℚ) :=
  let sub := bandFilter df spot percentage
  (strikeKeys sub).map (fun k =>
    (k, ((sub.filter (fun r => decide (r.strike = k))).map (notionalGamma spot)).sum))

/-- Embeds GEXCalculator.get_gex_by_strike with its default 15 percent band. -/
def get_gex_by_strike (df : List OptionRow) (spot : ℚ) : List (ℚ × ℚ) :=
  gexByStrikeBand df spot (15 / 100)

/-- Embeds GEXCalculator.get_put_call_gex: the dictionary with keys calls,
puts and net built from the 15-percent-band subset. -/
def get_put_call_gex (df : List OptionRow) (spot : ℚ) : List (String × ℚ) :=
  let sub := bandFilter df spot (15 / 100)
  let call_gex := ((sub.filter (fun r => decide (r.otype = OptionType.C))).map (notionalGamma spot)).sum
  let put_gex := ((sub.filter (fun r => decide (r.otype = OptionType.P))).map (notionalGamma spot)).sum
  [("calls", call_gex), ("puts", put_gex), ("net", call_gex + put_gex)]

/-- Running prefix sum of the value column of an ordered key-value list,
starting from acc; models the pandas cumsum over a groupby result. -/
def cumsum : List (ℚ × ℚ) → ℚ → List (ℚ × ℚ)
  | [], _ => []
  | (k, v) :: rest, acc => (k, acc + v) :: cumsum rest (acc + v)

/-- Embeds GEXCalculator.get_cumulative_gex: strikes inside the 20 percent
band, grouped and summed, sorted by strike, with the cumulative sum. -/
def get_cumulative_gex (df : List OptionRow) (spot : ℚ) : List (ℚ × ℚ) :=
  cumsum (gexByStrikeBand df spot (20 / 100)) 0

/-- Embeds GEXCalculator.get_weighted_expiration: days to expiration weighted
by absolute notional gamma.  The today argument models datetime.now. -/
def get_weighted_expiration (df : List OptionRow) (spot today : ℚ) : ℚ :=
  let absGex := df.map (fun r => |notionalGamma spot r|)
  let total := absGex.sum
  ((df.map (fun r => (r.expiration - today) * (|notionalGamma spot r| / total)))).sum

/-- Embeds the GEX column of gex_tracker.core.advanced_gex.compute_call_put_gex
and of the scenario functions: spot times gamma times open interest times the
contract size 100 times spot times 0.01, negated when the type column is P. -/
def gexScaled (spot : ℚ) (r : OptionRow) : ℚ :=
  let base := spot * r.gamma * r.open_interest * 100 * spot * (1 / 100)
  if r.otype = OptionType.P then -base else base

/-- Embeds compute_call_put_gex: separate call and put GEX sums and their
total, using the spot-squared scaling of the gex_tracker package. -/
def compute_call_put_gex (df : List OptionRow) (spot_price : ℚ) : ℚ × ℚ × ℚ :=
  let withGex := df.map (fun r => (r, gexScaled spot_price r))
  let call_gex := ((withGex.filter (fun p => decide (p.1.otype = OptionType.C))).map Prod.snd).sum
  let put_gex := ((withGex.filter (fun p => decide (p.1.otype = OptionType.P))).map Prod.snd).sum
  (call_gex, put_gex, call_gex + put_gex)

/-- Embeds the inner objective net_gamma_at_spot of find_zero_gamma: the total
GEX of the frame re-priced at the given spot with gammas held fixed. -/
def net_gamma_at_spot (df : List OptionRow) (spot : ℚ) : ℚ :=
  (df.map (gexScaled spot)).sum

/-- Absolute tolerance of the scipy bisect root finder (xtol, 2e-12). -/
def bisectXtol : ℚ := 2 / 1000000000000

/-- Relative tolerance of the scipy bisect root finder (four machine
epsilons). -/
def bisectRtol : ℚ := 1 / 2 ^ 50

/-- Iteration body of scipy.optimize.bisect: halve the step, probe the
midpoint, keep the sub-interval whose endpoint values straddle zero, and stop
when the probe is an exact zero or the step is below tolerance. -/
def bisectLoop (f : ℚ → ℚ) (fa : ℚ) : ℕ → ℚ → ℚ → ℚ
  | 0, xa, _ => xa
  | n + 1, xa, dm =>
    let dm2 := dm / 2
    let xm := xa + dm2
    let fm := f xm
    let xa2 := if 0 ≤ fm * fa then xm else xa
    if fm = 0 ∨ |dm2| < bisectXtol + bisectRtol * |xm| then xm
    else bisectLoop f fa n xa2 dm2

/-- Embeds scipy.optimize.bisect as used by find_zero_gamma: none models the
ValueError raised on a non-bracketing interval, which the caller catches. -/
def bisect (f : ℚ → ℚ) (xa xb : ℚ) (maxiter : ℕ) : Option ℚ :=
  let fa := f xa
  let fb := f xb
  if fa * fb > 0 then none
  else if fa = 0 then some xa
  else if fb = 0 then some xb
  else some (bisectLoop f fa maxiter xa (xb - xa))

/-- Embeds gex_tracker.core.advanced_gex.find_zero_gamma with its default
bounds of 0.8 and 1.2 times spot: an explicit check that the objective values
at the bounds do not share a sign, then a bracketed bisection. -/
def find_zero_gamma (df : List OptionRow) (spot_price : ℚ) : Option ℚ :=
  let lower_bound := spot_price * (8 / 10)
  let upper_bound := spot_price * (12 / 10)
  let f_low := net_gamma_at_spot df lower_bound
  let f_high := net_gamma_at_spot df upper_bound
  if f_low * f_high > 0 then none
  else bisect (net_gamma_at_spot df) lower_bound upper_bound 100

/-- Embeds gammaforge.core.scenarios.scenario_spot_shock: shift spot by the
given percentage and recompute the GEX column from the existing gammas. -/
def scenario_spot_shock (df : List OptionRow) (spot_price shift_pct : ℚ) : ℚ × ℚ :=
  let new_spot := spot_price * (1 + shift_pct)
  (new_spot, (df.map (gexScaled new_spot)).sum)

/-- Failure modes of the embedded Python operations. -/
inductive PyErr
  | zeroDivision
  | valueError
  | mathDomain
  | keyError
deriving DecidableEq, Repr

/-- Python division over rationals: raises ZeroDivisionError on a zero
denominator instead of returning a value. -/
def pydivQ (a b : ℚ) : Except PyErr ℚ :=
  if b = 0 then Except.error PyErr.zeroDivision else Except.ok (a / b)

/-- Embeds the replace(0, 1) applied to the open-interest denominator in
gex_tracker.core.flow.analyze_volume_vs_oi. -/
def replaceZeroWithOne (x : ℚ) : ℚ :=
  if x = 0 then 1 else x

/-- One output row of analyze_volume_vs_oi before the group-by: the
per-contract volume-to-open-interest ratio and the unusual-volume flag. -/
structure VolOiRow where
  strike : ℚ
  otype : OptionType
  volume : ℚ
  open_interest : ℚ
  vol_over_oi : ℚ
  is_unusual_volume : Bool
deriving DecidableEq, Repr

/-- Embeds the per-contract part of gex_tracker.core.flow.analyze_volume_vs_oi:
volume divided by open interest with zero open interest replaced by one, and
the comparison against the unusual-volume threshold. -/
def analyze_volume_vs_oi (df : List OptionRow) (threshold : ℚ) : Except PyErr (List VolOiRow) :=
  df.mapM (fun r => do
    let ratio_value ← pydivQ r.volume (replaceZeroWithOne r.open_interest)
    Except.ok { strike := r.strike, otype := r.otype, volume := r.volume,
                open_interest := r.open_interest, vol_over_oi := ratio_value,
                is_unusual_volume := decide (ratio_value > threshold) })

/-- Result dictionary of gex_tracker.core.flow.aggregate_flow_metrics. -/
structure FlowMetrics where
  total_volume : ℚ
  total_oi : ℚ
  vol_over_oi : ℚ
  call_volume : ℚ
  put_volume : ℚ
  call_oi : ℚ
  put_oi : ℚ
  pct_calls : ℚ
  pct_puts : ℚ
deriving DecidableEq, Repr

/-- Embeds gex_tracker.core.flow.aggregate_flow_metrics: totals by side, the
unguarded division of total volume by total open interest, and the percentage
split guarded by a positive total volume. -/
def aggregate_flow_metrics (df : List OptionRow) : Except PyErr FlowMetrics := do
  let total_volume := (df.map OptionRow.volume).sum
  let total_oi := (df.map OptionRow.open_interest).sum
  let ratio_value ← pydivQ total_volume total_oi
  let call_volume := ((df.filter (fun r => decide (r.otype = OptionType.C))).map OptionRow.volume).sum
  let put_volume := ((df.filter (fun r => decide (r.otype = OptionType.P))).map OptionRow.volume).sum
  let call_oi := ((df.filter (fun r => decide (r.otype = OptionType.C))).map OptionRow.open_interest).sum
  let put_oi := ((df.filter (fun r => decide (r.otype = OptionType.P))).map OptionRow.open_interest).sum
  let side_volume := call_volume + put_volume
  let pct_calls := if side_volume > 0 then call_volume / side_volume * 100 else 0
  let pct_puts := if side_volume > 0 then put_volume / side_volume * 100 else 0
  Except.ok { total_volume := total_volume, total_oi := total_oi,
              vol_over_oi := ratio_value, call_volume := call_volume,
              put_volume := put_volume, call_oi := call_oi, put_oi := put_oi,
              pct_calls := pct_calls, pct_puts := pct_puts }

/-- Python division over the reals: raises ZeroDivisionError on a zero
denominator. -/
noncomputable def pydiv (a b : ℝ) : Except PyErr ℝ :=
  if b = 0 then Except.error PyErr.zeroDivision else Except.ok (a / b)

/-- Embeds math.log: raises a math-domain error on a non-positive argument. -/
noncomputable def pylog (a : ℝ) : Except PyErr ℝ :=
  if a ≤ 0 then Except.error PyErr.mathDomain else Except.ok (Real.log a)

/-- Embeds math.sqrt: raises a math-domain error on a negative argument. -/
noncomputable def pysqrt (a : ℝ) : Except PyErr ℝ :=
  if a < 0 then Except.error PyErr.mathDomain else Except.ok (Real.sqrt a)

/-- Density of the standard normal distribution, embedding scipy norm.pdf. -/
noncomputable def normPdf (x : ℝ) : ℝ :=
  Real.exp (-(x ^ 2) / 2) / Real.sqrt (2 * Real.pi)

/-- Cumulative distribution function of the standard normal distribution,
embedding scipy norm.cdf. -/
noncomputable def normCdf (x : ℝ) : ℝ :=
  ∫ t in Set.Iic x, normPdf t

/-- Greeks dictionary returned by black_scholes_greeks. -/
structure Greeks where
  delta : ℝ
  gamma : ℝ
  theta : ℝ
  vega : ℝ
  rho : ℝ
  charm : ℝ
  vanna : ℝ
  speed : ℝ
  color : ℝ

/-- Greeks dictionary with every entry zero, returned in the expired case. -/
def zeroGreeks : Greeks :=
  { delta := 0, gamma := 0, theta := 0, vega := 0, rho := 0,
    charm := 0, vanna := 0, speed := 0, color := 0 }

/-- Embeds gex_tracker.core.black_scholes.black_scholes_greeks.  The early
return for a non-positive time to expiry yields the all-zero dictionary; every
division, logarithm and square root of the remaining closed-form computation
is fallible exactly where the Python operation is. -/
noncomputable def black_scholes_greeks (S K T r sigma : ℝ) (option_type : OptionType) :
    Except PyErr Greeks :=
  if T ≤ 0 then Except.ok zeroGreeks
  else do
    let sqrt_T ← pysqrt T
    let sk ← pydiv S K
    let logSK ← pylog sk
    let d1 ← pydiv (logSK + (r + 0.5 * sigma ^ 2) * T) (sigma * sqrt_T)
    let d2 := d1 - sigma * sqrt_T
    let nd1 := normPdf d1
    let nD1 := normCdf d1
    let nD2 := normCdf d2
    let delta := if option_type = OptionType.C then nD1 else nD1 - 1
    let rho := if option_type = OptionType.C then K * T * Real.exp (-r * T) * nD2
      else -K * T * Real.exp (-r * T) * normCdf (-d2)
    let thetaHead ← pydiv (S * nd1 * sigma) (2 * sqrt_T)
    let theta := if option_type = OptionType.C then
        -thetaHead - r * K * Real.exp (-r * T) * nD2
      else -thetaHead + r * K * Real.exp (-r * T) * normCdf (-d2)
    let gamma ← pydiv nd1 (S * sigma * sqrt_T)
    let vega := S * nd1 * sqrt_T
    let charmHead ← pydiv d2 (2 * sigma * sqrt_T)
    let charmTail ← if option_type = OptionType.C then
        pydiv (r * K * Real.exp (-r * T) * nD2) (S * sigma * sqrt_T)
      else pydiv (r * K * Real.exp (-r * T) * normCdf (-d2)) (S * sigma * sqrt_T)
    let charm := if option_type = OptionType.C then -nd1 * charmHead - charmTail
      else -nd1 * charmHead + charmTail
    let vanna ← pydiv (-nd1 * d2) sigma
    let speedInner ← pydiv d1 (sigma * sqrt_T)
    let speed ← pydiv (-gamma * (speedInner + 1)) S
    let colorMid ← pydiv (d1 * sigma) (2 * sqrt_T)
    let colorTail ← pydiv (2 * r + sigma ^ 2) (2 * sigma)
    let color ← pydiv (-gamma * (r + colorMid + colorTail)) (2 * T)
    Except.ok { delta := delta, gamma := gamma, theta := theta, vega := vega,
                rho := rho, charm := charm, vanna := vanna, speed := speed,
                color := color }

/-- Keys of the dictionary black_scholes_greeks returns, in insertion order
(both the expired branch and the main branch return all nine). -/
def greeksDictKeys : List String :=
  ["delta", "gamma", "theta", "vega", "rho", "charm", "vanna", "speed", "color"]

/-- Keys the results dictionary of compute_option_greeks is initialized with:
eight arrays, with rho absent. -/
def resultsInitKeys : List String :=
  ["delta", "gamma", "theta", "vega", "charm", "vanna", "speed", "color"]

/-- Embeds the store loop of compute_option_greeks over one row: each entry
of the returned Greeks dictionary is written into the results dictionary in
insertion order, and writing under a key the results dictionary was not
initialized with raises KeyError. -/
def storeGreeksRow : List String → Except PyErr Unit
  | [] => Except.ok ()
  | k :: rest =>
    if resultsInitKeys.contains k then storeGreeksRow rest
    else Except.error PyErr.keyError

/-- Embeds gex_tracker.core.black_scholes.compute_option_greeks: the per-row
application of black_scholes_greeks across a frame followed by the store loop
into the results arrays; a failure in any row propagates, as an uncaught
Python exception would.  The per-row dictionaries stand in for the results
arrays in the return value, which is reachable only for an empty frame since
the store loop raises on the rho key. -/
noncomputable def compute_option_greeks (df : List OptionRow) (spot_price rate : ℚ) :
    Except PyErr (List Greeks) :=
  df.mapM (fun row => do
    let greeks ← black_scholes_greeks (spot_price : ℝ) (row.strike : ℝ) (row.T : ℝ)
      (rate : ℝ) (row.iv : ℝ) row.otype
    let _u ← storeGreeksRow greeksDictKeys
    Except.ok greeks)

/-- Survivor frame of scenario_time_decay: time to expiry shifted back by
days_forward over 365 and clipped at zero, then rows with zero remaining time
removed. -/
def timeDecaySurvivors (df : List OptionRow) (days_forward : ℚ) : List OptionRow :=
  let shifted := df.map (fun r => { r with T := max (r.T - days_forward / 365) 0 })
  shifted.filter (fun r => decide (r.T > 0))

/-- Embeds gammaforge.core.scenarios.scenario_time_decay: shift and clip the
time column, drop expired rows, return zero when nothing survives, otherwise
recompute the gamma column with the Greeks engine and sum the rebuilt GEX
column at the unchanged spot. -/
noncomputable def scenario_time_decay (df : List OptionRow) (spot_price days_forward rate : ℚ) :
    Except PyErr ℝ :=
  let survivors := timeDecaySurvivors df days_forward
  if survivors = [] then Except.ok 0
  else do
    let greeks ← compute_option_greeks survivors spot_price rate
    let gex := (survivors.zip greeks).map (fun p =>
      let base := (spot_price : ℝ) * p.2.gamma * (p.1.open_interest : ℝ) * 100 *
        (spot_price : ℝ) * 0.01
      if p.1.otype = OptionType.P then -base else base)
    Except.ok gex.sum

/-- Dynamically typed SQLite cell: a REAL column can still receive text. -/
inductive SqlVal
  | real (q : ℚ)
  | text (s : String)
deriving DecidableEq, Repr

/-- Row of the daily_gex table; date is the primary key. -/
structure DailyRow where
  date : String
  total_gex : SqlVal
  call_gex : SqlVal
  put_gex : SqlVal
  spot_price : SqlVal
  weighted_expiry : SqlVal
deriving DecidableEq, Repr

/-- Row of the strike_gex table; the primary key is date, strike, type and
expiry. -/
structure StrikeRow where
  date : String
  strike : ℚ
  gex : ℚ
  otype : String
  expiry : String
deriving DecidableEq, Repr

/-- State of the per-ticker history database. -/
structure HistoryDB where
  daily : List DailyRow
  strikes : List StrikeRow
deriving DecidableEq, Repr

/-- INSERT OR REPLACE into daily_gex: replace any row with the same date. -/
def upsertDaily (db : HistoryDB) (row : DailyRow) : HistoryDB :=
  { db with daily := row :: db.daily.filter (fun r => decide (r.date ≠ row.date)) }

/-- INSERT OR REPLACE into strike_gex: replace any row with the same primary
key date, strike, type, expiry. -/
def upsertStrike (db : HistoryDB) (row : StrikeRow) : HistoryDB :=
  { db with strikes := row :: db.strikes.filter (fun r =>
      decide (¬ (r.date = row.date ∧ r.strike = row.strike ∧
        r.otype = row.otype ∧ r.expiry = row.expiry))) }

/-- Python tuple unpacking of an iterable into exactly two targets: raises
ValueError for any other length. -/
def unpack2 {α : Type} (xs : List α) : Except PyErr (α × α) :=
  match xs with
  | [a, b] => Except.ok (a, b)
  | _ => Except.error PyErr.valueError

/-- Embeds HistoricalGEXTracker.store_daily_snapshot.  The statement
call_gex, put_gex = calculator.get_put_call_gex() iterates the returned
dictionary, which yields its keys, and unpacks them into two targets; the
date argument models datetime.now formatted as a date string and today models
the clock read inside get_weighted_expiration. -/
def store_daily_snapshot (db : HistoryDB) (df : List OptionRow) (spot_price : ℚ)
    (date : String) (today : ℚ) : Except PyErr HistoryDB := do
  let total_gex := get_total_gex df spot_price
  let cp ← unpack2 ((get_put_call_gex df spot_price).map Prod.fst)
  let weighted_expiry := get_weighted_expiration df spot_price today
  let db1 := upsertDaily db
    { date := date, total_gex := SqlVal.real total_gex,
      call_gex := SqlVal.text cp.1, put_gex := SqlVal.text cp.2,
      spot_price := SqlVal.real spot_price,
      weighted_expiry := SqlVal.real weighted_expiry }
  let db2 := (get_gex_by_strike df spot_price).foldl (fun d (kv : ℚ × ℚ) =>
    upsertStrike d
      { date := date, strike := kv.1, gex := kv.2,
        otype := if kv.2 > 0 then "C" else "P", expiry := date }) db1
  Except.ok db2

/-- One row of the frame read back by analyze_gex_vs_price: total GEX and
spot price of one stored day, rows ordered by ascending date. -/
structure DayRow where
  gex : ℚ
  price : ℚ
deriving DecidableEq, Repr

/-- Relative changes of a column against the previous entry, carrying the
previous value; helper for pctChange. -/
def pctChangeFrom (prev : ℚ) : List ℚ → List (Option ℚ)
  | [] => []
  | q :: rest => some ((q - prev) / prev) :: pctChangeFrom q rest

/-- Embeds pandas pct_change on a column: entry i is the relative change from
entry i minus one, with no value (NaN) at the first entry. -/
def pctChange : List ℚ → List (Option ℚ)
  | [] => []
  | p :: rest => none :: pctChangeFrom p rest

/-- Embeds numpy percentile with its default linear interpolation: sort the
sample, take the fractional rank p over 100 times length minus one, and
interpolate between the order statistics at the floor of the rank and at the
next position, weighted by the fractional part of the rank. -/
def npPercentile (xs : List ℚ) (p : ℚ) : ℚ :=
  let s := xs.insertionSort (· ≤ ·)
  let rank : ℚ := p / 100 * ((s.length : ℚ) - 1)
  let lowIdx : ℕ := (Int.floor rank).toNat
  let lowVal := s.getD lowIdx 0
  let highVal := s.getD (lowIdx + 1) lowVal
  lowVal + (rank - (lowIdx : ℚ)) * (highVal - lowVal)

/-- Embeds a pandas mean with NaN skipping: the mean of the present values,
and no value when none are present. -/
def meanOpt (xs : List (Option ℚ)) : Option ℚ :=
  let vs := xs.filterMap id
  if vs = [] then none else some (vs.sum / (vs.length : ℚ))

/-- Result of analyze_gex_vs_price.  The correlation entry of the source
dictionary involves a square root and is omitted from the model; the
percentile dictionary and the conditional price changes are kept. -/
structure GexVsPrice where
  gex_percentiles : List (ℚ × ℚ)
  high_gex : Option ℚ
  low_gex : Option ℚ
deriving DecidableEq, Repr

/-- Embeds HistoricalGEXTracker.analyze_gex_vs_price on the rows the query
returns (ascending by date): below two rows it returns the explicit empty
result; otherwise it computes the per-day price change column, the GEX
percentiles, and the mean price change over the days whose total GEX lies
above the 75th or below the 25th percentile. -/
def analyze_gex_vs_price (rows : List DayRow) : Option GexVsPrice :=
  if rows.length < 2 then none
  else
    let gexs := rows.map DayRow.gex
    let changes := pctChange (rows.map DayRow.price)
    let pcts := [25, 50, 75, 90, 95].map (fun p => (p, npPercentile gexs p))
    let p75 := npPercentile gexs 75
    let p25 := npPercentile gexs 25
    let paired := rows.zip changes
    let hi := meanOpt ((paired.filter (fun rc => decide (rc.1.gex > p75))).map Prod.snd)
    let lo := meanOpt ((paired.filter (fun rc => decide (rc.1.gex < p25))).map Prod.snd)
    some { gex_percentiles := pcts, high_gex := hi, low_gex := lo }

/-- Two rationals share a sign when both are positive or both are negative. -/
def sameSign (a b : ℚ) : Prop :=
  (0 < a ∧ 0 < b) ∨ (a < 0 ∧ b < 0)

/-- Spot-free coefficient of the zero-gamma objective: summing the signed
gamma-open-interest products.  The objective equals this coefficient times
the square of the spot probed. -/
def netGammaCoeff (df : List OptionRow) : ℚ :=
  (df.map (fun r =>
    if r.otype = OptionType.P then -(r.gamma * r.open_interest)
    else r.gamma * r.open_interest)).sum

/-- Closed-form value of the Greeks dictionary on the success path of
black_scholes_greeks, with every fallible division replaced by the total
real division it returns when the denominator is nonzero. -/
noncomputable def greeksFormula (S K T r sigma : ℝ) (option_type : OptionType) : Greeks :=
  let sqrt_T := Real.sqrt T
  let d1 := (Real.log (S / K) + (r + 0.5 * sigma ^ 2) * T) / (sigma * sqrt_T)
  let d2 := d1 - sigma * sqrt_T
  let nd1 := normPdf d1
  let nD1 := normCdf d1
  let nD2 := normCdf d2
  let delta := if option_type = OptionType.C then nD1 else nD1 - 1
  let rho := if option_type = OptionType.C then K * T * Real.exp (-r * T) * nD2
    else -K * T * Real.exp (-r * T) * normCdf (-d2)
  let thetaHead := S * nd1 * sigma / (2 * sqrt_T)
  let theta := if option_type = OptionType.C then
      -thetaHead - r * K * Real.exp (-r * T) * nD2
    else -thetaHead + r * K * Real.exp (-r * T) * normCdf (-d2)
  let gamma := nd1 / (S * sigma * sqrt_T)
  let vega := S * nd1 * sqrt_T
  let charmHead := d2 / (2 * sigma * sqrt_T)
  let charmTail := if option_type = OptionType.C then
      r * K * Real.exp (-r * T) * nD2 / (S * sigma * sqrt_T)
    else r * K * Real.exp (-r * T) * normCdf (-d2) / (S * sigma * sqrt_T)
  let charm := if option_type = OptionType.C then -nd1 * charmHead - charmTail
    else -nd1 * charmHead + charmTail
  let vanna := -nd1 * d2 / sigma
  let speedInner := d1 / (sigma * sqrt_T)
  let speed := -gamma * (speedInner + 1) / S
  let colorMid := d1 * sigma / (2 * sqrt_T)
  let colorTail := (2 * r + sigma ^ 2) / (2 * sigma)
  let color := -gamma * (r + colorMid + colorTail) / (2 * T)
  { delta := delta, gamma := gamma, theta := theta, vega := vega, rho := rho,
    charm := charm, vanna := vanna, speed := speed, color := color }

/-- Mean of the same-day price percent change over the stored days whose
total GEX clears the cut, in consecutive-pair form: a pair joins the regime
when its second day clears the cut, and contributes the price change into
that second day.  Reference formulation for the corrected reading of the
regime analysis. -/
def pairRegimeMean (rows : List DayRow) (cut : ℚ) (isHigh : Bool) : Option ℚ :=
  let sel := ((rows.zip (rows.drop 1)).filter (fun pq =>
    if isHigh then decide (pq.2.gex > cut) else decide (pq.2.gex < cut))).map
    (fun pq => (pq.2.price - pq.1.price) / pq.1.price)
  if sel = [] then none else some (sel.sum / (sel.length : ℚ))

/-- Modelled from the words of the claim: the average of the next-day price
percent change over the days in a regime — a pair joins when its first day
clears the cut and contributes the change into the next day. -/
def followingDayRegimeMean (rows : List DayRow) (cut : ℚ) (isHigh : Bool) : Option ℚ :=
  let sel := ((rows.zip (rows.drop 1)).filter (fun pq =>
    if isHigh then decide (pq.1.gex > cut) else decide (pq.1.gex < cut))).map
    (fun pq => (pq.2.price - pq.1.price) / pq.1.price)
  if sel = [] then none else some (sel.sum / (sel.length : ℚ))

/-- Call of the worked example: strike 100, gamma 0.05, open interest 10. -/
def sampleCall : OptionRow :=
  { otype := OptionType.C, strike := 100, expiration := 30, gamma := 5 / 100,
    open_interest := 10, volume := 0, T := 1, iv := 1 / 5 }

/-- Put of the worked example: strike 100, gamma 0.03, open interest 5. -/
def samplePut : OptionRow :=
  { otype := OptionType.P, strike := 100, expiration := 30, gamma := 3 / 100,
    open_interest := 5, volume := 0, T := 1, iv := 1 / 5 }

/-- Call with unit gamma and unit open interest: its zero-gamma objective is
the square of the spot, positive at both bounds. -/
def unitCall : OptionRow :=
  { otype := OptionType.C, strike := 100, expiration := 30, gamma := 1,
    open_interest := 1, volume := 0, T := 1, iv := 1 / 5 }

/-- Call with zero gamma: every GEX aggregate over it vanishes. -/
def flatCall : OptionRow :=
  { otype := OptionType.C, strike := 100, expiration := 30, gamma := 0,
    open_interest := 1, volume := 0, T := 1, iv := 1 / 5 }

/-- Call with zero open interest: its notional gamma vanishes at every spot. -/
def zeroOiCall : OptionRow :=
  { otype := OptionType.C, strike := 100, expiration := 30, gamma := 5 / 100,
    open_interest := 0, volume := 0, T := 1, iv := 1 / 5 }

/-- Call expiring in one day: dropped by any time decay of a day or more. -/
def shortCall : OptionRow :=
  { otype := OptionType.C, strike := 100, expiration := 1, gamma := 5 / 100,
    open_interest := 10, volume := 0, T := 1 / 365, iv := 1 / 5 }

/-- Call with volume three and open interest two, for the flow metrics. -/
def tradedCall : OptionRow :=
  { otype := OptionType.C, strike := 100, expiration := 30, gamma := 5 / 100,
    open_interest := 2, volume := 3, T := 1, iv := 1 / 5 }

/-- Call with volume three and zero open interest. -/
def zeroOiTradedCall : OptionRow :=
  { otype := OptionType.C, strike := 100, expiration := 30, gamma := 5 / 100,
    open_interest := 0, volume := 3, T := 1, iv := 1 / 5 }

/-- Four stored days whose only high-GEX day is the second: GEX column
0, 10, 0, 0 and price column 100, 200, 100, 100. -/
def exRows : List DayRow :=
  [{ gex := 0, price := 100 }, { gex := 10, price := 200 },
   { gex := 0, price := 100 }, { gex := 0, price := 100 }]

theorem exceptOkBind {α β : Type} (a : α) (f : α → Except PyErr β) :
    (Except.ok a >>= f) = f a := rfl

theorem exceptErrorBind {α β : Type} (e : PyErr) (f : α → Except PyErr β) :
    ((Except.error e : Except PyErr α) >>= f) = Except.error e := rfl

theorem notionalGamma_C (spot strike expiration gamma oi volume T iv : ℚ) :
    notionalGamma spot
      { otype := OptionType.C, strike := strike, expiration := expiration, gamma := gamma,
        open_interest := oi, volume := volume, T := T, iv := iv } =
      gamma * 100 * oi * spot := rfl

theorem notionalGamma_P (spot strike expiration gamma oi volume T iv : ℚ) :
    notionalGamma spot
      { otype := OptionType.P, strike := strike, expiration := expiration, gamma := gamma,
        open_interest := oi, volume := volume, T := T, iv := iv } =
      -(gamma * 100 * oi * spot) := rfl

theorem gexScaled_C (spot strike expiration gamma oi volume T iv : ℚ) :
    gexScaled spot
      { otype := OptionType.C, strike := strike, expiration := expiration, gamma := gamma,
        open_interest := oi, volume := volume, T := T, iv := iv } =
      spot * gamma * oi * 100 * spot * (1 / 100) := rfl

theorem gexScaled_P (spot strike expiration gamma oi volume T iv : ℚ) :
    gexScaled spot
      { otype := OptionType.P, strike := strike, expiration := expiration, gamma := gamma,
        open_interest := oi, volume := volume, T := T, iv := iv } =
      -(spot * gamma * oi * 100 * spot * (1 / 100)) := rfl

theorem sum_split_by_type (df : List OptionRow) (f : OptionRow → ℚ) :
    ((df.filter (fun r => decide (r.otype = OptionType.C))).map f).sum +
      ((df.filter (fun r => decide (r.otype = OptionType.P))).map f).sum =
      (df.map f).sum := by
  induction df with
  | nil => simp
  | cons r rest ih =>
    rcases h : r.otype with _ | _ <;>
      simp [List.filter_cons, h, ← ih] <;> ring

theorem get_total_gex_split (df : List OptionRow) (spot : ℚ) :
    get_total_gex df spot =
      ((df.filter (fun r => decide (r.otype = OptionType.C))).map
        (fun r => r.gamma * 100 * r.open_interest * spot)).sum -
      ((df.filter (fun r => decide (r.otype = OptionType.P))).map
        (fun r => r.gamma * 100 * r.open_interest * spot)).sum := by
  induction df with
  | nil => simp [get_total_gex]
  | cons r rest ih =>
    rcases h : r.otype with _ | _ <;>
      simp [get_total_gex, List.filter_cons, h, notionalGamma, List.sum_cons] at ih ⊢ <;>
      rw [ih] <;> ring

/-- C1: the total GEX is the sum over all contracts of
gamma times 100 times open interest times spot, negated exactly once per put:
equivalently the unsigned call total minus the unsigned put total; and on the
worked example at spot 100 the call contributes 5000, the put contributes
minus 1500, and the total is 3500. -/
theorem C1_total_gex_signed_sum :
    (∀ (df : List OptionRow) (spot : ℚ),
      get_total_gex df spot =
        ((df.filter (fun r => decide (r.otype = OptionType.C))).map
          (fun r => r.gamma * 100 * r.open_interest * spot)).sum -
        ((df.filter (fun r => decide (r.otype = OptionType.P))).map
          (fun r => r.gamma * 100 * r.open_interest * spot)).sum) ∧
    notionalGamma 100 sampleCall = 5000 ∧
    notionalGamma 100 samplePut = -1500 ∧
    get_total_gex [sampleCall, samplePut] 100 = 3500 := by
  refine ⟨get_total_gex_split, ?_, ?_, ?_⟩
  · norm_num [sampleCall, notionalGamma_C]
  · norm_num [samplePut, notionalGamma_P]
  · norm_num [get_total_gex, sampleCall, samplePut, notionalGamma_C, notionalGamma_P]

theorem gexScaled_eq_scaled_notional (s : ℚ) (r : OptionRow) :
    gexScaled s r = s / 100 * notionalGamma s r := by
  rcases h : r.otype with _ | _ <;> simp [gexScaled, notionalGamma, h] <;> ring

theorem net_gamma_eq_scaled_total (df : List OptionRow) (s : ℚ) :
    net_gamma_at_spot df s = s / 100 * get_total_gex df s := by
  induction df with
  | nil => simp [net_gamma_at_spot, get_total_gex]
  | cons r rest ih =>
    simp only [net_gamma_at_spot, get_total_gex, List.map_cons, List.sum_cons] at ih ⊢
    rw [ih, gexScaled_eq_scaled_notional]
    ring

theorem compute_call_put_gex_total (df : List OptionRow) (S : ℚ) :
    (compute_call_put_gex df S).2.2 = net_gamma_at_spot df S := by
  have hmap : ∀ t : OptionType,
      ((df.map (fun r => (r, gexScaled S r))).filter
        (fun p => decide (p.1.otype = t))).map Prod.snd =
      (df.filter (fun r => decide (r.otype = t))).map (gexScaled S) := by
    intro t
    rw [List.filter_map, List.map_map]
    rfl
  show (((df.map (fun r => (r, gexScaled S r))).filter
      (fun p => decide (p.1.otype = OptionType.C))).map Prod.snd).sum +
      (((df.map (fun r => (r, gexScaled S r))).filter
        (fun p => decide (p.1.otype = OptionType.P))).map Prod.snd).sum =
      net_gamma_at_spot df S
  rw [hmap OptionType.C, hmap OptionType.P]
  exact sum_split_by_type df (gexScaled S)

/-- C9 (amended): the gex_tracker total GEX, the zero-gamma objective and the
spot-shock total all use the spot-squared scaling and equal spot over 100
times the gammaforge notional total at the same spot; hence both totals share
their sign and their zeros over positive spots, they agree whenever spot is
100, and they agree only at spot 100 or where the notional total vanishes. -/
theorem C9_scaling_refinement (df : List OptionRow) (S : ℚ) (hS : 0 < S) :
    (compute_call_put_gex df S).2.2 = S / 100 * get_total_gex df S ∧
    net_gamma_at_spot df S = S / 100 * get_total_gex df S ∧
    (∀ pct : ℚ, (scenario_spot_shock df S pct).2 =
      net_gamma_at_spot df (S * (1 + pct))) ∧
    (0 < (compute_call_put_gex df S).2.2 ↔ 0 < get_total_gex df S) ∧
    ((compute_call_put_gex df S).2.2 < 0 ↔ get_total_gex df S < 0) ∧
    (S = 100 → (compute_call_put_gex df S).2.2 = get_total_gex df S) ∧
    ((compute_call_put_gex df S).2.2 = get_total_gex df S →
      S = 100 ∨ get_total_gex df S = 0) ∧
    (∀ s : ℚ, 0 < s → (net_gamma_at_spot df s = 0 ↔ get_total_gex df s = 0)) := by
  have key : (compute_call_put_gex df S).2.2 = S / 100 * get_total_gex df S := by
    rw [compute_call_put_gex_total, net_gamma_eq_scaled_total]
  refine ⟨key, net_gamma_eq_scaled_total df S, fun pct => rfl, ?_, ?_, ?_, ?_, ?_⟩
  · rw [key]
    constructor <;> intro h <;> nlinarith
  · rw [key]
    constructor <;> intro h <;> nlinarith
  · intro h100
    rw [key, h100]
    ring
  · intro heq
    rw [key] at heq
    have h3 : (S / 100 - 1) * get_total_gex df S = 0 := by linarith
    rcases mul_eq_zero.mp h3 with h4 | h4
    · left
      have : S / 100 = 1 := by linarith
      field_simp at this
      linarith
    · right
      exact h4
  · intro s hs
    rw [net_gamma_eq_scaled_total]
    constructor
    · intro h
      rcases mul_eq_zero.mp h with h4 | h4
      · exfalso
        have hne : s ≠ 0 := ne_of_gt hs
        field_simp at h4
        exact hne h4
      · exact h4
    · intro h
      rw [h, mul_zero]

/-- C9 as stated is false: it asserts the two totals are equal exactly when
spot is 100, but on a chain whose only contract has zero open interest both
totals vanish and agree at spot 50. -/
theorem C9_counterexample :
    (compute_call_put_gex [zeroOiCall] 50).2.2 = get_total_gex [zeroOiCall] 50 ∧
    (50 : ℚ) ≠ 100 := by
  constructor
  · rw [compute_call_put_gex_total, net_gamma_eq_scaled_total]
    norm_num [get_total_gex, zeroOiCall, notionalGamma_C]
  · norm_num

/-- Witness for C9 at the worked-example call and spot 100. -/
theorem C9_witness :
    ((0 : ℚ) < 100 ∧
      (compute_call_put_gex [sampleCall] 100).2.2 =
        100 / 100 * get_total_gex [sampleCall] 100) ∧
    (net_gamma_at_spot [sampleCall] 100 = 0 ↔ get_total_gex [sampleCall] 100 = 0) := by
  refine ⟨⟨by norm_num, (C9_scaling_refinement [sampleCall] 100 (by norm_num)).1⟩, ?_⟩
  exact (C9_scaling_refinement [sampleCall] 100 (by norm_num)).2.2.2.2.2.2.2 100 (by norm_num)

theorem net_gamma_eq_coeff_sq (df : List OptionRow) (s : ℚ) :
    net_gamma_at_spot df s = netGammaCoeff df * s ^ 2 := by
  induction df with
  | nil => simp [net_gamma_at_spot, netGammaCoeff]
  | cons r rest ih =>
    simp only [net_gamma_at_spot, netGammaCoeff, List.map_cons, List.sum_cons] at ih ⊢
    rw [ih]
    rcases h : r.otype with _ | _ <;> simp [gexScaled, h] <;> ring

/-- C4: the zero-gamma solver evaluates its objective at 0.8 and 1.2 times
spot; when the two values share a sign it returns the explicit absent result,
and otherwise it returns a value inside the bounds whose objective lies below
the bisection tolerance in absolute value. -/
theorem C4_find_zero_gamma (df : List OptionRow) (spot : ℚ) (hS : 0 < spot) :
    (sameSign (net_gamma_at_spot df (spot * (8 / 10)))
        (net_gamma_at_spot df (spot * (12 / 10))) →
      find_zero_gamma df spot = none) ∧
    (¬ sameSign (net_gamma_at_spot df (spot * (8 / 10)))
        (net_gamma_at_spot df (spot * (12 / 10))) →
      ∃ v, find_zero_gamma df spot = some v ∧
        spot * (8 / 10) ≤ v ∧ v ≤ spot * (12 / 10) ∧
        |net_gamma_at_spot df v| < bisectXtol) := by
  constructor
  · intro hss
    have hprod : net_gamma_at_spot df (spot * (8 / 10)) *
        net_gamma_at_spot df (spot * (12 / 10)) > 0 := by
      rcases hss with ⟨h1, h2⟩ | ⟨h1, h2⟩
      · exact mul_pos h1 h2
      · exact mul_pos_of_neg_of_neg h1 h2
    simp only [find_zero_gamma]
    rw [if_pos hprod]
  · intro hns
    have hsq1 : (0 : ℚ) < (spot * (8 / 10)) ^ 2 := by positivity
    have hsq2 : (0 : ℚ) < (spot * (12 / 10)) ^ 2 := by positivity
    have hc : netGammaCoeff df = 0 := by
      by_contra hc0
      rcases lt_trichotomy (netGammaCoeff df) 0 with h | h | h
      · refine hns (Or.inr ⟨?_, ?_⟩) <;> rw [net_gamma_eq_coeff_sq]
        · exact mul_neg_of_neg_of_pos h hsq1
        · exact mul_neg_of_neg_of_pos h hsq2
      · exact hc0 h
      · refine hns (Or.inl ⟨?_, ?_⟩) <;> rw [net_gamma_eq_coeff_sq]
        · exact mul_pos h hsq1
        · exact mul_pos h hsq2
    have hlo : net_gamma_at_spot df (spot * (8 / 10)) = 0 := by
      rw [net_gamma_eq_coeff_sq, hc, zero_mul]
    have hhi : net_gamma_at_spot df (spot * (12 / 10)) = 0 := by
      rw [net_gamma_eq_coeff_sq, hc, zero_mul]
    refine ⟨spot * (8 / 10), ?_, le_refl _, by nlinarith, by rw [hlo]; norm_num [bisectXtol]⟩
    simp only [find_zero_gamma, bisect]
    rw [hlo, hhi]
    norm_num

/-- Witness for C4: a chain with unit gamma has a positive objective at both
bounds and yields the absent result; a chain with zero gamma has a vanishing
objective at both bounds and yields the lower bound as root. -/
theorem C4_witness :
    ((0 : ℚ) < 100 ∧
      sameSign (net_gamma_at_spot [unitCall] (100 * (8 / 10)))
        (net_gamma_at_spot [unitCall] (100 * (12 / 10))) ∧
      find_zero_gamma [unitCall] 100 = none) ∧
    (¬ sameSign (net_gamma_at_spot [flatCall] (100 * (8 / 10)))
        (net_gamma_at_spot [flatCall] (100 * (12 / 10))) ∧
      ∃ v, find_zero_gamma [flatCall] 100 = some v ∧
        100 * (8 / 10) ≤ v ∧ v ≤ 100 * (12 / 10) ∧
        |net_gamma_at_spot [flatCall] v| < bisectXtol) := by
  have h1 : sameSign (net_gamma_at_spot [unitCall] (100 * (8 / 10)))
      (net_gamma_at_spot [unitCall] (100 * (12 / 10))) := by
    norm_num [sameSign, net_gamma_at_spot, unitCall, gexScaled_C]
  have h2 : ¬ sameSign (net_gamma_at_spot [flatCall] (100 * (8 / 10)))
      (net_gamma_at_spot [flatCall] (100 * (12 / 10))) := by
    norm_num [sameSign, net_gamma_at_spot, flatCall, gexScaled_C]
  exact ⟨⟨by norm_num, h1, (C4_find_zero_gamma [unitCall] 100 (by norm_num)).1 h1⟩,
    h2, (C4_find_zero_gamma [flatCall] 100 (by norm_num)).2 h2⟩

/-- C3 evidence: store_daily_snapshot always raises.  get_put_call_gex
returns the three-key dictionary calls, puts, net, and unpacking its keys
into the two targets call_gex, put_gex raises ValueError before any row is
written, so no daily_gex row is ever stored, let alone upserted. -/
theorem C3_store_daily_snapshot_value_error (db : HistoryDB) (df : List OptionRow)
    (spot_price : ℚ) (date : String) (today : ℚ) :
    store_daily_snapshot db df spot_price date today = Except.error PyErr.valueError := rfl

/-- C7: a non-positive time to expiry yields the all-zero Greeks dictionary
and no error, whatever the other inputs, including a non-positive
volatility. -/
theorem C7_expired_zero_greeks (S K T r sigma : ℝ) (ty : OptionType) (h : T ≤ 0) :
    black_scholes_greeks S K T r sigma ty = Except.ok zeroGreeks := by
  simp only [black_scholes_greeks, if_pos h]

/-- Witness for C7 at time to expiry minus one, with volatility zero. -/
theorem C7_witness :
    black_scholes_greeks 100 100 (-1) 0 0 OptionType.C = Except.ok zeroGreeks :=
  C7_expired_zero_greeks 100 100 (-1) 0 0 OptionType.C (by norm_num)

theorem black_scholes_ok (S K T r sigma : ℝ) (ty : OptionType)
    (hS : 0 < S) (hK : 0 < K) (hT : 0 < T) (hsig : sigma ≠ 0) :
    black_scholes_greeks S K T r sigma ty = Except.ok (greeksFormula S K T r sigma ty) := by
  have hTle : ¬ (T ≤ 0) := not_le.mpr hT
  have hTlt : ¬ (T < 0) := not_lt.mpr hT.le
  have hK0 : K ≠ 0 := ne_of_gt hK
  have hSK : ¬ (S / K ≤ 0) := not_le.mpr (div_pos hS hK)
  have hsqrt : Real.sqrt T ≠ 0 := ne_of_gt (Real.sqrt_pos.mpr hT)
  have hS0 : S ≠ 0 := ne_of_gt hS
  have h2 : (2 : ℝ) ≠ 0 := two_ne_zero
  have hsig_sqrt : sigma * Real.sqrt T ≠ 0 := mul_ne_zero hsig hsqrt
  have hS_sig_sqrt : S * sigma * Real.sqrt T ≠ 0 :=
    mul_ne_zero (mul_ne_zero hS0 hsig) hsqrt
  have h2sqrt : (2 : ℝ) * Real.sqrt T ≠ 0 := mul_ne_zero h2 hsqrt
  have h2sig_sqrt : (2 : ℝ) * sigma * Real.sqrt T ≠ 0 :=
    mul_ne_zero (mul_ne_zero h2 hsig) hsqrt
  have h2sig : (2 : ℝ) * sigma ≠ 0 := mul_ne_zero h2 hsig
  have h2T : (2 : ℝ) * T ≠ 0 := mul_ne_zero h2 (ne_of_gt hT)
  rcases ty with _ | _ <;>
    simp only [black_scholes_greeks, greeksFormula, pysqrt, pydiv, pylog,
      if_neg hTle, if_neg hTlt, if_neg hK0, if_neg hSK, if_neg hsig_sqrt,
      if_neg hS_sig_sqrt, if_neg h2sqrt, if_neg h2sig_sqrt, if_neg hsig,
      if_neg h2sig, if_neg h2T, if_neg hS0, exceptOkBind] <;>
    simp

/-- C2 evidence: the Greeks engine has no domain check on the volatility.
With a negative volatility and otherwise valid inputs it returns a Greeks
dictionary computed from the closed form, raising nothing; with volatility
exactly zero the first division by sigma times the root of T raises
ZeroDivisionError, not a domain error. -/
theorem C2_no_domain_error_on_nonpositive_vol :
    (∀ (S K T r sigma : ℝ) (ty : OptionType), 0 < S → 0 < K → 0 < T → sigma < 0 →
      black_scholes_greeks S K T r sigma ty =
        Except.ok (greeksFormula S K T r sigma ty)) ∧
    (∀ (S K T r : ℝ) (ty : OptionType), 0 < S → 0 < K → 0 < T →
      black_scholes_greeks S K T r 0 ty = Except.error PyErr.zeroDivision) := by
  constructor
  · intro S K T r sigma ty hS hK hT hneg
    exact black_scholes_ok S K T r sigma ty hS hK hT (ne_of_lt hneg)
  · intro S K T r ty hS hK hT
    have hTle : ¬ (T ≤ 0) := not_le.mpr hT
    have hTlt : ¬ (T < 0) := not_lt.mpr hT.le
    have hK0 : K ≠ 0 := ne_of_gt hK
    have hSK : ¬ (S / K ≤ 0) := not_le.mpr (div_pos hS hK)
    simp [black_scholes_greeks, pysqrt, pydiv, pylog, hTle, hTlt, hK0, hSK,
      exceptOkBind, exceptErrorBind]

/-- Witness for C2: at spot 100, strike 100, one year, rate zero, the engine
returns a dictionary for volatility minus one and raises ZeroDivisionError
for volatility zero. -/
theorem C2_witness :
    black_scholes_greeks 100 100 1 0 (-1) OptionType.C =
      Except.ok (greeksFormula 100 100 1 0 (-1) OptionType.C) ∧
    black_scholes_greeks 100 100 1 0 0 OptionType.C =
      Except.error PyErr.zeroDivision := by
  constructor
  · exact C2_no_domain_error_on_nonpositive_vol.1 100 100 1 0 (-1) OptionType.C
      (by norm_num) (by norm_num) (by norm_num) (by norm_num)
  · exact C2_no_domain_error_on_nonpositive_vol.2 100 100 1 0 OptionType.C
      (by norm_num) (by norm_num) (by norm_num)

theorem timeDecaySurvivors_eq (df : List OptionRow) (d : ℚ) :
    timeDecaySurvivors df d =
      (df.filter (fun r => decide (d / 365 < r.T))).map
        (fun r => { r with T := r.T - d / 365 }) := by
  induction df with
  | nil => rfl
  | cons r rest ih =>
    simp only [timeDecaySurvivors, List.map_cons, List.filter_cons] at ih ⊢
    by_cases h : d / 365 < r.T
    · have hmax : max (r.T - d / 365) 0 = r.T - d / 365 := max_eq_left (by linarith)
      have hpos : max (r.T - d / 365) 0 > 0 := by rw [hmax]; linarith
      simp [h, hpos, hmax, ih]
    · have hmax : max (r.T - d / 365) 0 = 0 := max_eq_right (by linarith [not_lt.mp h])
      have hnpos : ¬ (max (r.T - d / 365) 0 > 0) := by rw [hmax]; norm_num
      simp [h, hnpos, ih]

theorem mem_timeDecaySurvivors_T_pos (df : List OptionRow) (d : ℚ) (r : OptionRow)
    (hr : r ∈ timeDecaySurvivors df d) : 0 < r.T := by
  have := List.mem_filter.mp hr
  simpa using this.2

theorem storeGreeksRow_keyError :
    storeGreeksRow greeksDictKeys = Except.error PyErr.keyError := by
  simp [storeGreeksRow, greeksDictKeys, resultsInitKeys]

/-- C5 evidence: the time-decay scenario shifts each time to expiry back by
daysForward over 365, clips at zero and drops non-positive survivors, and
returns exactly zero when daysForward covers every remaining time; but
whenever any contract survives, the Greeks recomputation raises KeyError —
the results dictionary of compute_option_greeks is initialized without the
rho key that black_scholes_greeks always returns — so the claimed recompute
of Greeks and GEX on the survivors never happens. -/
theorem C5_scenario_time_decay (df : List OptionRow) (spot d rate : ℚ) :
    ((∀ r ∈ df, r.T * 365 ≤ d) → scenario_time_decay df spot d rate = Except.ok 0) ∧
    timeDecaySurvivors df d =
      (df.filter (fun r => decide (d / 365 < r.T))).map
        (fun r => { r with T := r.T - d / 365 }) ∧
    (0 < spot → timeDecaySurvivors df d ≠ [] →
      (∀ r ∈ timeDecaySurvivors df d, 0 < r.strike ∧ r.iv ≠ 0) →
      scenario_time_decay df spot d rate = Except.error PyErr.keyError) := by
  refine ⟨?_, timeDecaySurvivors_eq df d, ?_⟩
  · intro h
    have hfilter : df.filter (fun r => decide (d / 365 < r.T)) = [] := by
      apply List.filter_eq_nil_iff.mpr
      intro r hr
      have := h r hr
      simp only [decide_eq_true_eq]
      linarith
    have hsurv : timeDecaySurvivors df d = [] := by
      rw [timeDecaySurvivors_eq, hfilter]
      rfl
    simp [scenario_time_decay, hsurv]
  · intro hspot hne hvalid
    obtain ⟨s, rest, hsr⟩ : ∃ s rest, timeDecaySurvivors df d = s :: rest := by
      cases hcase : timeDecaySurvivors df d with
      | nil => exact absurd hcase hne
      | cons a t => exact ⟨a, t, rfl⟩
    have hsmem : s ∈ timeDecaySurvivors df d := by
      rw [hsr]
      exact List.mem_cons_self s rest
    have hv := hvalid s hsmem
    have hT : 0 < s.T := mem_timeDecaySurvivors_T_pos df d s hsmem
    have hok := black_scholes_ok (spot : ℝ) (s.strike : ℝ) (s.T : ℝ) (rate : ℝ) (s.iv : ℝ)
      s.otype (by exact_mod_cast hspot) (by exact_mod_cast hv.1) (by exact_mod_cast hT)
      (by exact_mod_cast hv.2)
    simp only [scenario_time_decay, if_neg hne, hsr, compute_option_greeks,
      List.mapM_cons, hok, exceptOkBind, storeGreeksRow_keyError, exceptErrorBind]
    simp

/-- Witness for C5: a one-day call decayed five days forward leaves no
survivors and a total GEX of exactly zero, while the worked-example call
decayed seven days forward survives and the scenario raises KeyError in the
Greeks recomputation. -/
theorem C5_witness :
    ((∀ r ∈ [shortCall], r.T * 365 ≤ 5) ∧
      scenario_time_decay [shortCall] 100 5 (1 / 100) = Except.ok 0) ∧
    ((0 : ℚ) < 100 ∧ timeDecaySurvivors [sampleCall] 7 ≠ [] ∧
      scenario_time_decay [sampleCall] 100 7 (1 / 100) = Except.error PyErr.keyError) := by
  have hcov : ∀ r ∈ [shortCall], r.T * 365 ≤ 5 := by
    intro r hr
    simp only [List.mem_singleton] at hr
    rw [hr]
    norm_num [shortCall]
  have hsurv : timeDecaySurvivors [sampleCall] 7 =
      [{ sampleCall with T := 1 - 7 / 365 }] := by
    rw [timeDecaySurvivors_eq]
    norm_num [sampleCall, List.filter]
  have hne : timeDecaySurvivors [sampleCall] 7 ≠ [] := by
    rw [hsurv]
    exact List.cons_ne_nil _ _
  have hvalid : ∀ r ∈ timeDecaySurvivors [sampleCall] 7, 0 < r.strike ∧ r.iv ≠ 0 := by
    intro r hr
    rw [hsurv] at hr
    simp only [List.mem_singleton] at hr
    rw [hr]
    norm_num [sampleCall]
  exact ⟨⟨hcov, (C5_scenario_time_decay [shortCall] 100 5 (1 / 100)).1 hcov⟩,
    by norm_num, hne,
    (C5_scenario_time_decay [sampleCall] 100 7 (1 / 100)).2.2 (by norm_num) hne hvalid⟩

/-- C10: the aggregate flow metrics divide total volume by total open
interest with no zero guard: the division succeeds exactly under a nonzero
total, so a positive total open interest yields the well-defined ratio, while
a snapshot whose contracts all have zero open interest reaches the division
with a zero denominator and raises; the per-contract ratio of the
volume-versus-open-interest analysis replaces a zero denominator with one and
never fails. -/
theorem C10_aggregate_flow_division (df : List OptionRow) (threshold : ℚ) :
    (0 < (df.map OptionRow.open_interest).sum →
      ∃ m, aggregate_flow_metrics df = Except.ok m ∧
        m.vol_over_oi =
          (df.map OptionRow.volume).sum / (df.map OptionRow.open_interest).sum) ∧
    ((∀ r ∈ df, r.open_interest = 0) →
      aggregate_flow_metrics df = Except.error PyErr.zeroDivision) ∧
    (∃ rows, analyze_volume_vs_oi df threshold = Except.ok rows) := by
  refine ⟨?_, ?_, ?_⟩
  · intro hpos
    have hne : (df.map OptionRow.open_interest).sum ≠ 0 := ne_of_gt hpos
    simp only [aggregate_flow_metrics, pydivQ, if_neg hne, exceptOkBind]
    exact ⟨_, rfl, rfl⟩
  · intro h
    have h0 : (df.map OptionRow.open_interest).sum = 0 := by
      apply List.sum_eq_zero
      intro x hx
      rcases List.mem_map.mp hx with ⟨r, hr, hrx⟩
      rw [← hrx]
      exact h r hr
    simp only [aggregate_flow_metrics, pydivQ, h0, eq_self_iff_true, if_true, exceptErrorBind]
  · induction df with
    | nil => exact ⟨[], rfl⟩
    | cons a t ih =>
      obtain ⟨rows, hrows⟩ := ih
      have hrep : replaceZeroWithOne a.open_interest ≠ 0 := by
        unfold replaceZeroWithOne
        by_cases h : a.open_interest = 0 <;> simp [h]
      have hhead : pydivQ a.volume (replaceZeroWithOne a.open_interest) =
          Except.ok (a.volume / replaceZeroWithOne a.open_interest) := by
        simp [pydivQ, hrep]
      refine ⟨
        { strike := a.strike, otype := a.otype, volume := a.volume,
          open_interest := a.open_interest,
          vol_over_oi := a.volume / replaceZeroWithOne a.open_interest,
          is_unusual_volume :=
            decide (a.volume / replaceZeroWithOne a.open_interest > threshold) } :: rows, ?_⟩
      simp only [analyze_volume_vs_oi] at hrows ⊢
      simp only [List.mapM_cons, hhead, exceptOkBind, hrows]
      rfl

/-- Witness for C10: one contract with volume three and open interest two
gives the ratio three halves; one contract with volume three and zero open
interest raises ZeroDivisionError. -/
theorem C10_witness :
    ((0 : ℚ) < ([tradedCall].map OptionRow.open_interest).sum ∧
      ∃ m, aggregate_flow_metrics [tradedCall] = Except.ok m ∧
        m.vol_over_oi = ([tradedCall].map OptionRow.volume).sum /
          ([tradedCall].map OptionRow.open_interest).sum) ∧
    ((∀ r ∈ [zeroOiTradedCall], r.open_interest = 0) ∧
      aggregate_flow_metrics [zeroOiTradedCall] = Except.error PyErr.zeroDivision) ∧
    (∃ rows, analyze_volume_vs_oi [tradedCall] 2 = Except.ok rows) := by
  have h1 : (0 : ℚ) < ([tradedCall].map OptionRow.open_interest).sum := by
    norm_num [tradedCall]
  have h2 : ∀ r ∈ [zeroOiTradedCall], r.open_interest = 0 := by
    intro r hr
    simp only [List.mem_singleton] at hr
    rw [hr]
    norm_num [zeroOiTradedCall]
  exact ⟨⟨h1, (C10_aggregate_flow_division [tradedCall] 2).1 h1⟩,
    ⟨h2, (C10_aggregate_flow_division [zeroOiTradedCall] 2).2.1 h2⟩,
    (C10_aggregate_flow_division [tradedCall] 2).2.2⟩

theorem regime_pairs_from (rest : List DayRow) :
    ∀ (prev : DayRow) (c : DayRow → Bool),
    (((rest.zip (pctChangeFrom prev.price (rest.map DayRow.price))).filter
      (fun rc => c rc.1)).map Prod.snd).filterMap id =
    (((prev :: rest).zip rest).filter (fun pq => c pq.2)).map
      (fun pq => (pq.2.price - pq.1.price) / pq.1.price) := by
  induction rest with
  | nil => intro prev c; rfl
  | cons q rest2 ih =>
    intro prev c
    simp only [List.map_cons, pctChangeFrom, List.zip_cons_cons, List.filter_cons]
    by_cases hq : c q
    · simp [hq, ih q c]
    · simp [hq, ih q c]

theorem regime_pairs (r0 : DayRow) (rest : List DayRow) (c : DayRow → Bool) :
    ((((r0 :: rest).zip (pctChange ((r0 :: rest).map DayRow.price))).filter
      (fun rc => c rc.1)).map Prod.snd).filterMap id =
    (((r0 :: rest).zip rest).filter (fun pq => c pq.2)).map
      (fun pq => (pq.2.price - pq.1.price) / pq.1.price) := by
  simp only [List.map_cons, pctChange, List.zip_cons_cons, List.filter_cons]
  by_cases h0 : c r0
  · simp only [h0, if_true, List.map_cons, List.filterMap_cons_none]
    simpa using regime_pairs_from rest r0 c
  · simp only [h0]
    simpa using regime_pairs_from rest r0 c

/-- C6 (amended): with at least two stored days, the analysis partitions days
by the 75th and 25th percentile of total GEX and reports, for each side, the
mean of the price percent change of that same day — the change from the
previous day into the selected day, the first day being skipped — not the
change of the following day. -/
theorem C6_regime_price_changes (rows : List DayRow) (h2 : 2 ≤ rows.length) :
    ∃ res, analyze_gex_vs_price rows = some res ∧
      res.high_gex = pairRegimeMean rows (npPercentile (rows.map DayRow.gex) 75) true ∧
      res.low_gex = pairRegimeMean rows (npPercentile (rows.map DayRow.gex) 25) false := by
  have hlen : ¬ (rows.length < 2) := not_lt.mpr h2
  match rows with
  | r0 :: rest =>
    simp only [analyze_gex_vs_price, if_neg hlen]
    refine ⟨_, rfl, ?_, ?_⟩
    · simp only [meanOpt, pairRegimeMean, List.drop_one, List.tail_cons]
      rw [regime_pairs r0 rest
        (fun r => decide (r.gex > npPercentile ((r0 :: rest).map DayRow.gex) 75))]
      simp
    · simp only [meanOpt, pairRegimeMean, List.drop_one, List.tail_cons]
      rw [regime_pairs r0 rest
        (fun r => decide (r.gex < npPercentile ((r0 :: rest).map DayRow.gex) 25))]
      simp

theorem npPercentile_ex75 : npPercentile [0, 10, 0, 0] 75 = 5 / 2 := by
  norm_num [npPercentile, List.insertionSort, List.orderedInsert]
  simp
  norm_num

theorem npPercentile_ex25 : npPercentile [0, 10, 0, 0] 25 = 0 := by
  norm_num [npPercentile, List.insertionSort, List.orderedInsert]

/-- C6 as stated is false: on the four stored days with GEX 0, 10, 0, 0 and
prices 100, 200, 100, 100, the only day above the 75th percentile is the
second, whose following-day price change is minus one half, yet the analysis
reports plus one — the change into the selected day itself. -/
theorem C6_counterexample :
    (analyze_gex_vs_price exRows).map GexVsPrice.high_gex = some (some 1) ∧
    followingDayRegimeMean exRows (npPercentile (exRows.map DayRow.gex) 75) true =
      some (-(1 / 2)) ∧
    some ((1 : ℚ)) ≠ some (-(1 / 2) : ℚ) := by
  refine ⟨?_, ?_, by norm_num⟩
  · norm_num [exRows, analyze_gex_vs_price, npPercentile_ex75, npPercentile_ex25,
      pctChange, pctChangeFrom, meanOpt, List.filter, List.zip, List.zipWith,
      List.filterMap]
  · norm_num [exRows, followingDayRegimeMean, npPercentile_ex75, List.filter,
      List.zip, List.zipWith]

/-- Witness for C6 on the four example days. -/
theorem C6_witness :
    2 ≤ exRows.length ∧
    ∃ res, analyze_gex_vs_price exRows = some res ∧
      res.high_gex = pairRegimeMean exRows (npPercentile (exRows.map DayRow.gex) 75) true ∧
      res.low_gex = pairRegimeMean exRows (npPercentile (exRows.map DayRow.gex) 25) false :=
  ⟨by norm_num [exRows], C6_regime_price_changes exRows (by norm_num [exRows])⟩

theorem cumsum_map_fst : ∀ (l : List (ℚ × ℚ)) (acc : ℚ),
    (cumsum l acc).map Prod.fst = l.map Prod.fst
  | [], _ => rfl
  | (k, v) :: rest, acc => by
    simp only [cumsum, List.map_cons]
    rw [cumsum_map_fst rest (acc + v)]

theorem cumsum_getLastD : ∀ (l : List (ℚ × ℚ)) (acc k0 : ℚ),
    ((cumsum l acc).getLastD (k0, acc)).2 = acc + (l.map Prod.snd).sum
  | [], acc, k0 => by simp [cumsum]
  | (k, v) :: rest, acc, k0 => by
    simp only [cumsum, List.getLastD_cons, List.map_cons, List.sum_cons]
    rw [cumsum_getLastD rest (acc + v) k]
    ring

theorem mem_strikeKeys (l : List OptionRow) (r : OptionRow) (hr : r ∈ l) :
    r.strike ∈ strikeKeys l := by
  unfold strikeKeys
  rw [(List.perm_insertionSort (· ≤ ·) _).mem_iff]
  exact List.mem_dedup.mpr (List.mem_map_of_mem OptionRow.strike hr)

theorem strikeKeys_sorted (l : List OptionRow) : (strikeKeys l).Sorted (· < ·) := by
  have hs : (strikeKeys l).Sorted (· ≤ ·) := List.sorted_insertionSort _ _
  have hn : (strikeKeys l).Nodup :=
    ((List.perm_insertionSort (· ≤ ·) _).nodup_iff).mpr (List.nodup_dedup _)
  exact hs.lt_of_le hn

theorem sum_map_add (ks : List ℚ) (f g : ℚ → ℚ) :
    (ks.map (fun k => f k + g k)).sum = (ks.map f).sum + (ks.map g).sum := by
  induction ks with
  | nil => simp
  | cons k rest ih => simp [ih]; ring

theorem sum_map_ite_eq (ks : List ℚ) (a v : ℚ) (hnd : ks.Nodup) (ha : a ∈ ks) :
    (ks.map (fun k => if a = k then v else 0)).sum = v := by
  induction ks with
  | nil => cases ha
  | cons k rest ih =>
    rcases List.nodup_cons.mp hnd with ⟨hk, hrest⟩
    by_cases h : a = k
    · subst h
      have hzero : (rest.map (fun x => if a = x then v else 0)).sum = 0 := by
        apply List.sum_eq_zero
        intro x hx
        rcases List.mem_map.mp hx with ⟨y, hy, hxy⟩
        have hay : a ≠ y := fun hay => hk (by rw [← hay] at hy; exact hy)
        rw [← hxy, if_neg hay]
      simp [hzero]
    · have hmem : a ∈ rest := by
        rcases List.mem_cons.mp ha with h1 | h1
        · exact absurd h1 h
        · exact h1
      simp [h, ih hrest hmem]

theorem groupby_filter_sum (g : OptionRow → ℚ) : ∀ (sub : List OptionRow) (ks : List ℚ),
    ks.Nodup → (∀ r ∈ sub, r.strike ∈ ks) →
    (ks.map (fun k => ((sub.filter (fun r => decide (r.strike = k))).map g).sum)).sum =
      (sub.map g).sum := by
  intro sub
  induction sub with
  | nil => intro ks _ _; simp
  | cons r rest ih =>
    intro ks hnd hmem
    have hr : r.strike ∈ ks := hmem r (List.mem_cons_self r rest)
    have hrest : ∀ x ∈ rest, x.strike ∈ ks := fun x hx => hmem x (List.mem_cons_of_mem r hx)
    have hstep : ∀ k : ℚ,
        (((r :: rest).filter (fun x => decide (x.strike = k))).map g).sum =
          (if r.strike = k then g r else 0) +
            ((rest.filter (fun x => decide (x.strike = k))).map g).sum := by
      intro k
      by_cases h : r.strike = k <;> simp [List.filter_cons, h]
    simp only [hstep]
    rw [sum_map_add ks (fun k => if r.strike = k then g r else 0)
      (fun k => ((rest.filter (fun x => decide (x.strike = k))).map g).sum)]
    rw [sum_map_ite_eq ks r.strike (g r) hnd hr, ih ks hnd hrest]
    rw [List.map_cons, List.sum_cons]

theorem gexByStrikeBand_map_fst (df : List OptionRow) (spot pct : ℚ) :
    (gexByStrikeBand df spot pct).map Prod.fst = strikeKeys (bandFilter df spot pct) := by
  unfold gexByStrikeBand
  rw [List.map_map]
  exact List.map_id _

theorem gexByStrikeBand_snd_sum (df : List OptionRow) (spot pct : ℚ) :
    ((gexByStrikeBand df spot pct).map Prod.snd).sum =
      ((bandFilter df spot pct).map (notionalGamma spot)).sum := by
  unfold gexByStrikeBand
  rw [List.map_map]
  exact groupby_filter_sum (notionalGamma spot) (bandFilter df spot pct)
    (strikeKeys (bandFilter df spot pct))
    (((List.perm_insertionSort (· ≤ ·) _).nodup_iff).mpr (List.nodup_dedup _))
    (fun r hr => mem_strikeKeys _ r hr)

/-- C8: the cumulative GEX sequence is ordered by strictly ascending strike,
and its final cumulative value equals the sum of the signed notional gammas
of all contracts whose strikes lie within twenty percent of spot. -/
theorem C8_cumulative_gex (df : List OptionRow) (spot : ℚ) :
    ((get_cumulative_gex df spot).map Prod.fst).Sorted (· < ·) ∧
    ((get_cumulative_gex df spot).getLastD (0, 0)).2 =
      ((bandFilter df spot (20 / 100)).map (notionalGamma spot)).sum := by
  constructor
  · rw [get_cumulative_gex, cumsum_map_fst, gexByStrikeBand_map_fst]
    exact strikeKeys_sorted _
  · rw [get_cumulative_gex, cumsum_getLastD _ 0 0, gexByStrikeBand_snd_sum]
    ring

end GammaForge
